import Mathlib

/-!
Verification of the MedReportAnalytics report-analysis pipeline.

The Python sources are shallowly embedded as executable Lean functions:
strings are `List Char` (with `String` wrappers), dicts are association
lists that preserve insertion order, and the fixed regular expressions of
the source are translated into explicit scanning functions with Python
`re` semantics (leftmost match, case-insensitive ASCII comparison, word
boundaries, lazy capture stopping at the alternation or at `$`).
-/

namespace MedReport

/-- Python `\s` whitespace characters (ASCII range). -/
def isPySpace (c : Char) : Bool :=
  c == ' ' || c == '\t' || c == '\n' || c == '\r' || c == '\x0b' || c == '\x0c'

/-- Python `\w` word character (ASCII range): letter, digit or underscore. -/
def isWordChar (c : Char) : Bool := c.isAlphanum || c == '_'

/-- Case-insensitive (ASCII) test that `p` is a prefix of the text. -/
def ciStarts : List Char → List Char → Bool
  | [], _ => true
  | _ :: _, [] => false
  | p :: ps, c :: cs => (p.toLower == c.toLower) && ciStarts ps cs

/-- Python substring containment `needle in hay` (case-sensitive). -/
def substrAt : List Char → List Char → Bool
  | p, [] => p.isEmpty
  | p, c :: cs => p.isPrefixOf (c :: cs) || substrAt p cs

/-- Python substring containment over `String`. -/
def containsSub (needle hay : String) : Bool := substrAt needle.data hay.data

/-- Python `str.lower()` (ASCII range). -/
def strLower (s : String) : String := ⟨s.data.map Char.toLower⟩

/-- Python `sep.join(items)`. -/
def pyJoin (sep : String) : List String → String
  | [] => ""
  | [x] => x
  | x :: xs => x ++ sep ++ pyJoin sep xs

/-- A `\b` word boundary holds after a match ending in a word character
iff the following text is empty or starts with a non-word character. -/
def wordBoundaryAfter : List Char → Bool
  | [] => true
  | c :: _ => !(isWordChar c)

/-- Python `str.strip()`: drop leading whitespace, then trailing whitespace. -/
def dropTrail (l : List Char) : List Char := (l.reverse.dropWhile isPySpace).reverse

/-- Python `str.strip()` on a character list. -/
def pyStrip (l : List Char) : List Char := dropTrail (l.dropWhile isPySpace)

/-! ## Section segmentation (nlp_processor.extract_report_sections) -/

/-- The fixed vocabulary of section headers (nlp_processor.py lines 127-131). -/
def sectionHeaders : List String :=
  ["CLINICAL HISTORY", "HISTORY", "FINDINGS", "IMPRESSION",
   "DIAGNOSIS", "LABORATORY DATA", "RESULTS", "CONCLUSION",
   "RADIOGRAPHIC FINDINGS", "PATHOLOGY FINDINGS"]

/-- Does some vocabulary header match case-insensitively at this position? -/
def headerAt (cs : List Char) : Bool :=
  sectionHeaders.any (fun h => ciStarts h.data cs)

/-- Can `$` (no MULTILINE) match at this position: end of text, or just
before a newline that ends the text. -/
def dollarAt (cs : List Char) : Bool := cs == [] || cs == ['\n']

/-- Characters matched by the `[:\s]` class of the section pattern. -/
def isSepChar (c : Char) : Bool := c == ':' || isPySpace c

/-- Length consumed by the lazy group `(.*?)` of the section pattern: the
smallest extent after which the alternation of all headers or `$` matches. -/
def bodyLen : List Char → Nat
  | [] => 0
  | c :: cs => if headerAt (c :: cs) || dollarAt (c :: cs) then 0 else bodyLen cs + 1

/-- Body extent in the words of the specification: everything up to the next
recognized header occurrence or the end of the text. -/
def claimStop : List Char → Nat
  | [] => 0
  | c :: cs => if headerAt (c :: cs) then 0 else claimStop cs + 1

/-- Does the text start with a character of the `[:\s]` class? -/
def headSep : List Char → Bool
  | [] => false
  | c :: _ => isSepChar c

/-- Leftmost position where header `h` matches case-insensitively followed by
at least one `[:\s]` character; returns the text after the header.  This is
`re.search` of `h[:\s]+(.*?)(?:HEADERS|$)` restricted to the start position:
the remainder of the pattern always succeeds (the lazy group can reach the
end of the text, where `$` matches), so the pattern matches at a position iff
the header does, followed by one `[:\s]` character. -/
def findHeaderRest (h : List Char) : List Char → Option (List Char)
  | [] => none
  | c :: cs =>
    if ciStarts h (c :: cs) && headSep (List.drop h.length (c :: cs)) then
      some (List.drop h.length (c :: cs))
    else findHeaderRest h cs

/-- One iteration of the loop of `extract_report_sections`: the content
captured for header `h`, stripped, or `none` when the pattern fails. -/
def extractSection (h : String) (cs : List Char) : Option String :=
  match findHeaderRest h.data cs with
  | none => none
  | some rest =>
    let body := rest.dropWhile isSepChar
    some (pyStrip (body.take (bodyLen body))).asString

/-- nlp_processor.extract_report_sections: dictionary from found headers to
stripped section bodies, in header-vocabulary insertion order. -/
def extract_report_sections (text : String) : List (String × String) :=
  sectionHeaders.filterMap (fun h => (extractSection h text.data).map (fun b => (h, b)))

/-! ## Medical term identification (nlp_processor.identify_medical_terms) -/

/-- The three shapes of pattern in MEDICAL_TERMS_PATTERNS (nlp_processor.py
lines 32-42): the proper-noun-led disease/syndrome/disorder phrase pattern,
the numeric measurement pattern, and word-alternation patterns. -/
inductive TermPattern where
  | disease
  | measure
  | words (ws : List String)
deriving DecidableEq

/-- Match one of the literal alternatives case-insensitively at the start of
the text, branches tried in declaration order, requiring a `\b` boundary
after the alternative (regex alternation semantics: the first branch for
which the rest of the pattern also succeeds wins). Returns the match length. -/
def matchWordAlt (words : List String) (cs : List Char) : Option Nat :=
  words.findSome? (fun w =>
    if ciStarts w.data cs && wordBoundaryAfter (List.drop w.length cs) then
      some w.length
    else none)

/-- Match `[A-Z][a-z]+ (disease|syndrome|disorder)\b` (with re.IGNORECASE,
so both classes match any ASCII letter) at the start of the text.  The
greedy letter run cannot be shortened usefully: a shorter run leaves a
letter where the literal space is required, so only the maximal run can
lead to a match. -/
def matchDisease (cs : List Char) : Option Nat :=
  match cs with
  | [] => none
  | c :: rest =>
    if !c.isAlpha then none
    else
      let run := rest.takeWhile Char.isAlpha
      if run.isEmpty then none
      else
        match rest.drop run.length with
        | ' ' :: rest2 =>
          match matchWordAlt ["disease", "syndrome", "disorder"] rest2 with
          | some k => some (1 + run.length + 1 + k)
          | none => none
        | _ => none

/-- The measurement units of the numeric pattern, in declaration order
(the third byte pair is the mojibake spelling of the micro sign found in
the source). -/
def unitWords : List String :=
  ["mg", "g", "mL", "L", "mmol", "Î¼mol", "ng", "pg", "IU", "mcg"]

/-- Match `[0-9]+(\.[0-9]+)?\s*(mg|g|mL|L|mmol|..|mcg)\b` at the start of
the text.  The greedy digit run, optional fraction and whitespace run are
all forced: shortening any of them leaves a digit, dot or whitespace where
only a unit letter can continue the match, so the maximal extents are the
only viable ones. -/
def matchMeasure (cs : List Char) : Option Nat :=
  let digits := cs.takeWhile Char.isDigit
  if digits.isEmpty then none
  else
    let rest := cs.drop digits.length
    let fracLen :=
      match rest with
      | '.' :: ds =>
        let fd := ds.takeWhile Char.isDigit
        if fd.isEmpty then 0 else 1 + fd.length
      | _ => 0
    let rest2 := rest.drop fracLen
    let spaces := rest2.takeWhile isPySpace
    let rest3 := rest2.drop spaces.length
    match matchWordAlt unitWords rest3 with
    | some k => some (digits.length + fracLen + spaces.length + k)
    | none => none

/-- Try a pattern at the start of the text, returning the match length. -/
def patMatch : TermPattern → List Char → Option Nat
  | .disease, cs => matchDisease cs
  | .measure, cs => matchMeasure cs
  | .words ws, cs => matchWordAlt ws cs

/-- MEDICAL_TERMS_PATTERNS in declaration order (nlp_processor.py 32-42). -/
def MEDICAL_TERMS_PATTERNS : List TermPattern :=
  [.disease, .measure,
   .words ["elevated", "decreased", "normal", "abnormal", "positive", "negative"],
   .words ["CBC", "MRI", "CT", "PET", "EKG", "ECG", "EEG", "WBC", "RBC"],
   .words ["hemoglobin"], .words ["leukocyte"], .words ["glucose"],
   .words ["cholesterol"], .words ["triglycerides"]]

/-- `re.finditer` driver: scan positions left to right; all patterns start
with a word character, so the leading `\b` holds exactly when the previous
character is not a word character (tracked in the boolean argument).  After
a match the scan resumes at its end, non-overlapping, and the boundary state
is recomputed from the last matched character.  Fuel is the text length;
every step consumes at least one character. -/
def scanAux (m : List Char → Option Nat) : Nat → List Char → Bool → List (List Char)
  | 0, _, _ => []
  | _ + 1, [], _ => []
  | fuel + 1, c :: cs, prevWord =>
    match (if prevWord then none else m (c :: cs)) with
    | some k =>
      let matched := (c :: cs).take k
      matched :: scanAux m fuel ((c :: cs).drop k) (isWordChar (matched.getLastD c))
    | none => scanAux m fuel cs (isWordChar c)

/-- All matches of one pattern in the text, left to right. -/
def patternMatches (p : TermPattern) (cs : List Char) : List (List Char) :=
  scanAux (patMatch p) cs.length cs false

/-- The full match stream: patterns applied in declaration order, each
scanned left to right over the whole text. -/
def allMatches (cs : List Char) : List (List Char) :=
  MEDICAL_TERMS_PATTERNS.flatMap (fun p => patternMatches p cs)

/-- The dedup loop of identify_medical_terms: append a match only when the
identical (case-sensitive) string has not been collected yet. -/
def dedupAppend (acc : List (List Char)) (t : List Char) : List (List Char) :=
  if t ∈ acc then acc else acc ++ [t]

/-- identify_medical_terms on a character list. -/
def identifyTermsL (cs : List Char) : List (List Char) :=
  (allMatches cs).foldl dedupAppend []

/-- nlp_processor.identify_medical_terms. -/
def identify_medical_terms (text : String) : List String :=
  (identifyTermsL text.data).map List.asString

/-! ## Condition inference (condition_predictor.predict_conditions) -/

/-- FINDINGS_TO_CONDITIONS (condition_predictor.py lines 8-47), in the
declaration order of the source dictionary literal. -/
def FINDINGS_TO_CONDITIONS : List (String × List String) :=
  [("elevated glucose", ["Diabetes", "Prediabetes", "Metabolic syndrome"]),
   ("high blood sugar", ["Diabetes", "Prediabetes", "Metabolic syndrome"]),
   ("elevated cholesterol", ["Hypercholesterolemia", "Atherosclerosis", "Cardiovascular disease"]),
   ("high ldl", ["Hypercholesterolemia", "Atherosclerosis", "Cardiovascular disease"]),
   ("elevated triglycerides", ["Hypertriglyceridemia", "Metabolic syndrome", "Pancreatitis"]),
   ("decreased hemoglobin", ["Anemia", "Blood loss", "Chronic disease"]),
   ("low hemoglobin", ["Anemia", "Blood loss", "Chronic disease"]),
   ("elevated wbc", ["Infection", "Inflammation", "Leukemia"]),
   ("high white blood cell", ["Infection", "Inflammation", "Leukemia"]),
   ("low platelet", ["Thrombocytopenia", "Bone marrow disorders", "Immune disorders"]),
   ("elevated tsh", ["Hypothyroidism", "Thyroid disorder"]),
   ("decreased tsh", ["Hyperthyroidism", "Thyroid disorder"]),
   ("elevated creatinine", ["Kidney disease", "Renal insufficiency", "Dehydration"]),
   ("elevated alt", ["Liver disease", "Hepatitis", "Medication effect"]),
   ("elevated ast", ["Liver disease", "Hepatitis", "Muscle damage"]),
   ("pulmonary nodule", ["Lung cancer", "Granuloma", "Infection"]),
   ("ground glass opacit", ["Pneumonia", "COVID-19", "Interstitial lung disease"]),
   ("pleural effusion", ["Congestive heart failure", "Pneumonia", "Malignancy"]),
   ("cardiomegaly", ["Heart failure", "Cardiomyopathy", "Pericardial effusion"]),
   ("atherosclerosis", ["Coronary artery disease", "Peripheral vascular disease", "Stroke risk"]),
   ("fracture", ["Trauma", "Osteoporosis", "Pathological fracture"]),
   ("osteophyte", ["Osteoarthritis", "Degenerative joint disease"]),
   ("disc herniation", ["Radiculopathy", "Back pain", "Spinal cord compression"]),
   ("disc buldge", ["Degenerative disc disease", "Back pain", "Spinal stenosis"]),
   ("mass", ["Neoplasm", "Malignancy", "Tumor"]),
   ("lesion", ["Neoplasm", "Infection", "Inflammation"]),
   ("atypical cells", ["Dysplasia", "Premalignant condition", "Cancer"]),
   ("malignant cells", ["Cancer", "Carcinoma", "Malignancy"]),
   ("hyperplasia", ["Benign growth", "Hormonal changes", "Precancerous in some contexts"]),
   ("dysplasia", ["Precancerous condition", "Abnormal development"]),
   ("metaplasia", ["Adaptive cell change", "Increased cancer risk"]),
   ("inflammation", ["Infection", "Autoimmune condition", "Inflammatory disease"]),
   ("necrosis", ["Tissue death", "Ischemia", "Tumor"])]

/-- Scan of `re.search(r'\b' + phrase + r'\b', text, re.IGNORECASE)`: all
the table phrases begin and end with a word character, so the leading `\b`
holds iff the previous character is not a word character (tracked in the
boolean), and the trailing `\b` iff the following text does not begin with
a word character. -/
def wordSearchAux (p : List Char) : List Char → Bool → Bool
  | [], _ => false
  | c :: cs, prevWord =>
    (!prevWord && ciStarts p (c :: cs) && wordBoundaryAfter (List.drop p.length (c :: cs)))
      || wordSearchAux p cs (isWordChar c)

/-- Case-insensitive whole-word/phrase search of a finding phrase. -/
def wordSearch (phrase : String) (cs : List Char) : Bool :=
  wordSearchAux phrase.data cs false

/-- The search text of predict_conditions: all section bodies concatenated,
each followed by one space, in section-map insertion order. -/
def fullTextOf (sections : List (String × String)) : String :=
  sections.foldl (fun acc kv => acc ++ kv.2 ++ " ") ""

/-- One table hit: add 1 to the condition's counter if it exists, else
create the counter at the end with value 1 (Python dict insertion order). -/
def bumpScore (scores : List (String × Nat)) (c : String) : List (String × Nat) :=
  if scores.any (fun p => p.1 == c) then
    scores.map (fun p => if p.1 == c then (p.1, p.2 + 1) else p)
  else scores ++ [(c, 1)]

/-- One table entry of the scan loop: when the finding phrase occurs in the
search text, bump the counter of every condition of the entry. -/
def scoreStep (ft : List Char) (sc : List (String × Nat)) (fc : String × List String) :
    List (String × Nat) :=
  if wordSearch fc.1 ft then fc.2.foldl bumpScore sc else sc

/-- The condition_scores dictionary after the full table scan, as an
association list in counter-creation order. -/
def conditionScores (ft : List Char) : List (String × Nat) :=
  FINDINGS_TO_CONDITIONS.foldl (scoreStep ft) []

/-- Stable insertion step for descending sort by score: the element is
placed before the first earlier-ranked element whose score is not larger,
so equal scores keep their relative order. -/
def insertByScore (x : String × Nat) : List (String × Nat) → List (String × Nat)
  | [] => [x]
  | y :: ys => if y.2 ≤ x.2 then x :: y :: ys else y :: insertByScore x ys

/-- Stable sort by score descending, modelling Python
`sorted(..., key=lambda x: x[1], reverse=True)` (Timsort is stable). -/
def sortScores : List (String × Nat) → List (String × Nat)
  | [] => []
  | x :: l => insertByScore x (sortScores l)

/-- The ranked (condition, score) pairs produced by predict_conditions
before the scores are dropped. -/
def predictRanking (sections : List (String × String)) : List (String × Nat) :=
  sortScores (conditionScores (fullTextOf sections).data)

/-- condition_predictor.predict_conditions: ranked condition names, or the
sentinel list when nothing matched. -/
def predict_conditions (sections : List (String × String)) : List String :=
  if ((predictRanking sections).map Prod.fst).isEmpty then
    ["No specific conditions identified"]
  else (predictRanking sections).map Prod.fst

/-! ## Enrichment (data_enricher.enrich_data) -/

/-- MEDICAL_TERM_DEFINITIONS (data_enricher.py lines 7-44). -/
def MEDICAL_TERM_DEFINITIONS : List (String × String) :=
  [("hemoglobin", "A protein in red blood cells that carries oxygen throughout the body."),
   ("wbc", "White Blood Cells, which are part of the immune system and help fight infection."),
   ("rbc", "Red Blood Cells, which carry oxygen from the lungs to the rest of the body."),
   ("platelet", "Cell fragments that help with blood clotting."),
   ("glucose", "A type of sugar that is the body\x27s main source of energy."),
   ("hba1c", "Hemoglobin A1c, a test that measures average blood sugar levels over the past 2-3 months."),
   ("creatinine", "A waste product that comes from normal muscle use and is filtered out by the kidneys."),
   ("bun", "Blood Urea Nitrogen, a waste product filtered out by the kidneys."),
   ("alt", "Alanine Transaminase, an enzyme found primarily in the liver that indicates liver health."),
   ("ast", "Aspartate Aminotransferase, an enzyme found in various tissues that can indicate tissue damage."),
   ("ldl", "Low-Density Lipoprotein, often called \x27bad cholesterol\x27."),
   ("hdl", "High-Density Lipoprotein, often called \x27good cholesterol\x27."),
   ("triglycerides", "A type of fat found in the blood that can increase risk of heart disease."),
   ("opacity", "An area that appears white or light gray on an X-ray, indicating something dense."),
   ("nodule", "A small rounded lump that may appear in various tissues and organs."),
   ("lesion", "Any abnormal damage or change in tissue, often referring to an area of disease."),
   ("fracture", "A break in a bone."),
   ("effusion", "Abnormal collection of fluid within a body cavity."),
   ("atelectasis", "Collapse of lung tissue preventing the exchange of carbon dioxide and oxygen."),
   ("infiltrate", "Substance that abnormally accumulates in tissues or cells, often referring to inflammation or infection in lungs."),
   ("cardiomegaly", "Enlarged heart."),
   ("pneumothorax", "Air in the space between the lung and chest wall, causing lung collapse."),
   ("biopsy", "Procedure to remove a piece of tissue for examination."),
   ("hyperplasia", "Abnormal increase in the number of cells in an organ or tissue."),
   ("dysplasia", "Abnormal development of cells that may indicate early stages of cancer."),
   ("metaplasia", "Replacement of one type of cell with another type that is not normally present."),
   ("neoplasm", "Abnormal growth of tissue, may be benign or malignant."),
   ("malignant", "Cancerous; cells that can invade nearby tissue and spread to other parts of the body."),
   ("benign", "Not cancerous; does not invade nearby tissue or spread to other parts of the body."),
   ("necrosis", "Death of body tissue due to disease or injury."),
   ("inflammation", "Body\x27s response to injury or infection, characterized by redness, swelling, heat, and pain.")]

/-- CONDITION_DEFINITIONS (data_enricher.py lines 47-63). -/
def CONDITION_DEFINITIONS : List (String × String) :=
  [("diabetes", "A chronic condition that affects how your body turns food into energy, characterized by high blood sugar levels."),
   ("hypertension", "High blood pressure, a common condition that can lead to serious health problems like heart disease and stroke."),
   ("anemia", "A condition in which you lack enough healthy red blood cells to carry adequate oxygen to your body\x27s tissues."),
   ("pneumonia", "An infection that inflames the air sacs in one or both lungs, which may fill with fluid."),
   ("bronchitis", "Inflammation of the lining of your bronchial tubes, which carry air to and from your lungs."),
   ("coronary artery disease", "Damage or disease in the heart\x27s major blood vessels that can lead to heart attack."),
   ("osteoporosis", "A condition that causes bones to become weak and brittle."),
   ("arthritis", "Inflammation of one or more joints, causing pain and stiffness."),
   ("hypothyroidism", "A condition in which the thyroid gland doesn\x27t produce enough thyroid hormone."),
   ("hyperthyroidism", "A condition in which the thyroid gland produces too much thyroid hormone."),
   ("kidney disease", "A condition that affects the kidneys\x27 ability to filter waste from the blood."),
   ("liver disease", "A term for a variety of conditions that affect the liver\x27s ability to function."),
   ("copd", "Chronic Obstructive Pulmonary Disease, a chronic inflammatory lung disease that causes obstructed airflow from the lungs."),
   ("asthma", "A condition in which your airways narrow and swell and produce extra mucus."),
   ("cancer", "A disease in which abnormal cells divide uncontrollably and destroy body tissue.")]

/-- REFERENCE_RANGES (data_enricher.py lines 66-81). -/
def REFERENCE_RANGES : List (String × String) :=
  [("hemoglobin", "Male: 13.5-17.5 g/dL; Female: 12.0-15.5 g/dL"),
   ("wbc", "4,500-11,000 cells/mcL"),
   ("rbc", "Male: 4.7-6.1 million cells/mcL; Female: 4.2-5.4 million cells/mcL"),
   ("platelets", "150,000-450,000/mcL"),
   ("glucose", "Fasting: 70-99 mg/dL"),
   ("hba1c", "Below 5.7%: Normal; 5.7-6.4%: Prediabetes; 6.5% or higher: Diabetes"),
   ("creatinine", "Male: 0.74-1.35 mg/dL; Female: 0.59-1.04 mg/dL"),
   ("bun", "7-20 mg/dL"),
   ("alt", "Male: 7-55 U/L; Female: 7-45 U/L"),
   ("ast", "8-48 U/L"),
   ("total cholesterol", "Below 200 mg/dL"),
   ("ldl", "Below 100 mg/dL"),
   ("hdl", "Male: Above 40 mg/dL; Female: Above 50 mg/dL"),
   ("triglycerides", "Below 150 mg/dL")]

/-- The three mappings assembled by enrich_data. -/
structure EnrichedData where
  term_definitions : List (String × String)
  condition_info : List (String × String)
  reference_ranges : List (String × String)
deriving DecidableEq

/-- Python dict assignment `d[k] = v`: update in place when the key exists
(keeping its position), else append at the end. -/
def dictInsert (d : List (String × String)) (k v : String) : List (String × String) :=
  if d.any (fun p => p.1 == k) then d.map (fun p => if p.1 == k then (p.1, v) else p)
  else d ++ [(k, v)]

/-- First table entry whose key matches the lowercased term, by Python `in`
substring test or whole-word regex search on the lowercased term; the first
matching entry wins (the loop breaks).  The regex disjunct is implied by
the substring one but is kept as in the source. -/
def tableLookup (table : List (String × String)) (termLower : List Char) : Option String :=
  table.findSome? (fun kv =>
    if substrAt kv.1.data termLower || wordSearch kv.1 termLower then some kv.2 else none)

/-- First condition definition matching by bidirectional substring test. -/
def conditionLookup (condLower : List Char) : Option String :=
  CONDITION_DEFINITIONS.findSome? (fun kv =>
    if substrAt kv.1.data condLower || substrAt condLower kv.1.data then some kv.2 else none)

/-- One term of the enrichment loop over the given static table. -/
def enrichStep (table : List (String × String)) (d : List (String × String))
    (term : String) : List (String × String) :=
  match tableLookup table (strLower term).data with
  | some v => dictInsert d term v
  | none => d

/-- One condition of the condition-info enrichment loop. -/
def condEnrichStep (d : List (String × String)) (cond : String) : List (String × String) :=
  match conditionLookup (strLower cond).data with
  | some v => dictInsert d cond v
  | none => d

/-- data_enricher.enrich_data (terms are processed_data medical_terms). -/
def enrich_data (terms conditions : List String) : EnrichedData :=
  ⟨terms.foldl (enrichStep MEDICAL_TERM_DEFINITIONS) [],
   conditions.foldl condEnrichStep [],
   terms.foldl (enrichStep REFERENCE_RANGES) []⟩

/-! ## The pipeline entry points and their exception skeletons -/

/-- The structured result of process_text relevant to the pipeline (the
embeddings entry is None in the deterministic mode and carries no data). -/
structure ProcessedData where
  sections : List (String × String)
  medicalTerms : List String
deriving DecidableEq

/-- nlp_processor.process_text in the deterministic mode (the NLP model is
an optional collaborator; without it extract_text_embeddings returns the
same sections and terms with no embeddings). -/
def process_text (text : String) : ProcessedData :=
  ⟨extract_report_sections text, identify_medical_terms text⟩

/-- Exception skeleton of process_text (nlp_processor.py lines 155-178):
`fault` abstracts an internal step raising with the given message; the
except block wraps the message and RE-RAISES, modelled as `Except.error`. -/
def processTextWithFault (fault : Option String) (text : String) : Except String ProcessedData :=
  match fault with
  | some msg => Except.error ("Failed to process report text: " ++ msg)
  | none => Except.ok (process_text text)

/-- Exception skeleton of predict_conditions (condition_predictor.py lines
59-97): an internal fault is swallowed and the error sentinel returned. -/
def predictConditionsWithFault (fault : Option String)
    (sections : List (String × String)) : List String :=
  match fault with
  | some _ => ["Error in condition prediction"]
  | none => predict_conditions sections

/-- Exception skeleton of enrich_data (data_enricher.py lines 94-144): an
internal fault is swallowed and the three empty mappings returned. -/
def enrichDataWithFault (fault : Option String) (terms conditions : List String) : EnrichedData :=
  match fault with
  | some _ => ⟨[], [], []⟩
  | none => enrich_data terms conditions

/-! ## Query answering (nlp_processor.generate_basic_response / process_query) -/

/-- The summary loop of generate_basic_response: first section among the
given keys that is present in the map with a truthy (non-empty) body. -/
def summaryLookup (sections : List (String × String)) : List String → Option String
  | [] => none
  | k :: ks =>
    match List.lookup k sections with
    | some v => if v ≠ "" then some v else summaryLookup sections ks
    | none => summaryLookup sections ks

/-- nlp_processor.generate_basic_response: deterministic keyword dispatch
(each branch returns, so the sequential ifs of the source form a chain). -/
def generate_basic_response (query : String) (pd : ProcessedData)
    (conds : List String) (_ed : EnrichedData) : String :=
  if containsSub "condition" (strLower query) || containsSub "diagnosis" (strLower query) then
    if !conds.isEmpty then
      "Based on the report, possible conditions include: " ++ pyJoin ", " (conds.take 3)
    else "No specific conditions were identified in this report."
  else if containsSub "abnormal" (strLower query) || containsSub "concerning" (strLower query) then
    if !pd.medicalTerms.isEmpty then
      "The report contains these medical terms that may be of interest: "
        ++ pyJoin ", " (pd.medicalTerms.take 5)
    else "No specific abnormal findings were highlighted in this report."
  else if containsSub "summary" (strLower query) then
    match summaryLookup pd.sections ["IMPRESSION", "CONCLUSION", "FINDINGS"] with
    | some body => "Report summary: " ++ body
    | none => "No summary section was found in this report."
  else
    "I can help you understand this medical report. Try asking about conditions, abnormal findings, or ask for a summary."

/-- nlp_processor.process_query in the deterministic mode (the NLP model
unavailable, lines 195-197): delegates to generate_basic_response. -/
def process_query (query : String) (pd : ProcessedData)
    (conds : List String) (ed : EnrichedData) : String :=
  generate_basic_response query pd conds ed

/-- Exception skeleton of process_query (nlp_processor.py lines 193-232):
an internal fault is swallowed and the apology fallback returned. -/
def processQueryWithFault (fault : Option String) (query : String)
    (pd : ProcessedData) (conds : List String) (ed : EnrichedData) : String :=
  match fault with
  | some _ => "I\x27m sorry, I encountered an error processing your query. Please try a different question."
  | none => process_query query pd conds ed

/-! ## Supporting lemmas -/

/-- The end-to-end demonstration input of the specification. -/
def demoText : String :=
  "FINDINGS: elevated glucose noted. IMPRESSION: consistent with prediabetes."

theorem append_ne_empty (a b : String) (h : a.data ≠ []) : a ++ b ≠ "" := by
  intro hc
  apply h
  have hd : (a ++ b).data = [] := by rw [hc]
  rw [String.data_append] at hd
  exact (List.append_eq_nil.mp hd).1

theorem generate_basic_response_ne_empty (q : String) (pd : ProcessedData)
    (conds : List String) (ed : EnrichedData) :
    generate_basic_response q pd conds ed ≠ "" := by
  unfold generate_basic_response
  repeat' split
  all_goals first
    | decide
    | (apply append_ne_empty
       decide)

theorem predict_conditions_ne_nil (sections : List (String × String)) :
    predict_conditions sections ≠ [] := by
  unfold predict_conditions
  split
  · decide
  · rename_i hne
    intro hc
    rw [hc] at hne
    exact hne rfl

theorem error_sentinel_ne_nil : (["Error in condition prediction"] : List String) ≠ [] := by
  decide

theorem apology_ne_empty :
    ("I\x27m sorry, I encountered an error processing your query. Please try a different question." : String) ≠ "" := by
  decide

/-! ## Claim theorems -/

/-- C6: on the text "FINDINGS: elevated glucose noted. IMPRESSION: consistent
with prediabetes.", the section map has keys FINDINGS and IMPRESSION with the
expected bodies, the identified terms include "elevated" and "glucose", and
the condition ranking is Diabetes, Prediabetes, Metabolic syndrome, each with
score 1, in table declaration order (Diabetes first). -/
theorem C6_end_to_end_scenario :
    List.lookup "FINDINGS" (extract_report_sections demoText)
      = some "elevated glucose noted." ∧
    List.lookup "IMPRESSION" (extract_report_sections demoText)
      = some "consistent with prediabetes." ∧
    "elevated" ∈ identify_medical_terms demoText ∧
    "glucose" ∈ identify_medical_terms demoText ∧
    predictRanking (extract_report_sections demoText)
      = [("Diabetes", 1), ("Prediabetes", 1), ("Metabolic syndrome", 1)] ∧
    predict_conditions (extract_report_sections demoText)
      = ["Diabetes", "Prediabetes", "Metabolic syndrome"] := by decide

/-- C9: with no external knowledge collaborator in the code at all,
enrich_data on (["hemoglobin"], []) yields the static-table definition for
key "hemoglobin", which is non-empty; the model is a total function, and the
exception skeleton shows an internal fault is swallowed (the handler returns
the three empty mappings, it does not re-raise). -/
theorem C9_hemoglobin_static_enrichment :
    (enrichDataWithFault none ["hemoglobin"] []).term_definitions
      = [("hemoglobin", "A protein in red blood cells that carries oxygen throughout the body.")] ∧
    "A protein in red blood cells that carries oxygen throughout the body." ≠ "" ∧
    (∀ fault : Option String,
      enrichDataWithFault fault ["hemoglobin"] [] = enrich_data ["hemoglobin"] []
        ∨ enrichDataWithFault fault ["hemoglobin"] [] = ⟨[], [], []⟩) := by
  refine ⟨by decide, by decide, ?_⟩
  intro fault
  cases fault with
  | none => exact Or.inl rfl
  | some m => exact Or.inr rfl

/-- C7: whenever the lowercased query contains "condition" or "diagnosis",
the deterministic responder either lists the top 3 ranked condition names
joined by ", " (when the ranking is non-empty) or returns the
none-identified message (when it is empty). -/
theorem C7_condition_query (query : String) (pd : ProcessedData)
    (conds : List String) (ed : EnrichedData)
    (h : containsSub "condition" (strLower query) = true
        ∨ containsSub "diagnosis" (strLower query) = true) :
    (conds ≠ [] ∧ process_query query pd conds ed
        = "Based on the report, possible conditions include: " ++ pyJoin ", " (conds.take 3))
    ∨ (conds = [] ∧ process_query query pd conds ed
        = "No specific conditions were identified in this report.") := by
  have hcc : (containsSub "condition" (strLower query)
      || containsSub "diagnosis" (strLower query)) = true := by
    rcases h with h | h <;> simp [h]
  unfold process_query generate_basic_response
  rw [hcc]
  cases conds with
  | nil => exact Or.inr ⟨rfl, by simp⟩
  | cons c cs => exact Or.inl ⟨by simp, by simp [List.isEmpty]⟩

/-- Witness for C7 at a concrete query and ranking. -/
theorem C7_condition_query_witness :
    (["Diabetes", "Prediabetes", "Metabolic syndrome", "Other"] ≠ [] ∧
      process_query "What conditions are present?" ⟨[], []⟩
          ["Diabetes", "Prediabetes", "Metabolic syndrome", "Other"] ⟨[], [], []⟩
        = "Based on the report, possible conditions include: "
            ++ pyJoin ", " (["Diabetes", "Prediabetes", "Metabolic syndrome", "Other"].take 3))
    ∨ (["Diabetes", "Prediabetes", "Metabolic syndrome", "Other"] = [] ∧
      process_query "What conditions are present?" ⟨[], []⟩
          ["Diabetes", "Prediabetes", "Metabolic syndrome", "Other"] ⟨[], [], []⟩
        = "No specific conditions were identified in this report.") :=
  C7_condition_query "What conditions are present?" ⟨[], []⟩
    ["Diabetes", "Prediabetes", "Metabolic syndrome", "Other"] ⟨[], [], []⟩
    (Or.inl (by decide))

/-- C8 counterexample: the claim fails as stated.  First input: the query
"Any diagnosis summary?" contains the summary keyword and IMPRESSION is
present, yet the responder answers the higher-priority condition branch, not
the IMPRESSION section.  Second input: IMPRESSION is present with an empty
body and the responder skips it, answering with CONCLUSION instead. -/
theorem C8_counterexample :
    containsSub "summary" (strLower "Any diagnosis summary?") = true ∧
    List.lookup "IMPRESSION" [("IMPRESSION", "stable appearance")] = some "stable appearance" ∧
    process_query "Any diagnosis summary?"
        ⟨[("IMPRESSION", "stable appearance")], []⟩ ["Flu"] ⟨[], [], []⟩
      ≠ "Report summary: stable appearance" ∧
    process_query "Any diagnosis summary?"
        ⟨[("IMPRESSION", "stable appearance")], []⟩ ["Flu"] ⟨[], [], []⟩
      = "Based on the report, possible conditions include: Flu" ∧
    containsSub "summary" (strLower "summary please") = true ∧
    List.lookup "IMPRESSION" [("IMPRESSION", ""), ("CONCLUSION", "benign")] = some "" ∧
    process_query "summary please"
        ⟨[("IMPRESSION", ""), ("CONCLUSION", "benign")], []⟩ [] ⟨[], [], []⟩
      ≠ "Report summary: " ∧
    process_query "summary please"
        ⟨[("IMPRESSION", ""), ("CONCLUSION", "benign")], []⟩ [] ⟨[], [], []⟩
      = "Report summary: benign" := by decide

/-- C8 amended: for a query containing the summary keyword and none of the
higher-priority condition/diagnosis/abnormal/concerning keywords, the
deterministic responder returns the first section among IMPRESSION,
CONCLUSION, FINDINGS that is present with a non-empty body, and the literal
no-summary message when there is none. -/
theorem C8_amended_summary_query (query : String) (pd : ProcessedData)
    (conds : List String) (ed : EnrichedData)
    (hsum : containsSub "summary" (strLower query) = true)
    (hc : containsSub "condition" (strLower query) = false)
    (hd : containsSub "diagnosis" (strLower query) = false)
    (ha : containsSub "abnormal" (strLower query) = false)
    (hcg : containsSub "concerning" (strLower query) = false) :
    process_query query pd conds ed
      = match summaryLookup pd.sections ["IMPRESSION", "CONCLUSION", "FINDINGS"] with
        | some body => "Report summary: " ++ body
        | none => "No summary section was found in this report." := by
  unfold process_query generate_basic_response
  rw [hsum, hc, hd, ha, hcg]
  rfl

/-- Witness for C8 amended at a concrete query and section map. -/
theorem C8_amended_summary_query_witness :
    process_query "Give me a summary" ⟨[], []⟩ [] ⟨[], [], []⟩
      = match summaryLookup (⟨[], []⟩ : ProcessedData).sections
            ["IMPRESSION", "CONCLUSION", "FINDINGS"] with
        | some body => "Report summary: " ++ body
        | none => "No summary section was found in this report." :=
  C8_amended_summary_query "Give me a summary" ⟨[], []⟩ [] ⟨[], [], []⟩
    (by decide) (by decide) (by decide) (by decide) (by decide)

/-- C1 counterexample: the claim fails as stated for analyze.  The except
block of process_text (nlp_processor.py lines 176-178) wraps an internal
fault and RE-RAISES it instead of returning a structured result, so in the
counterfactual where an internal step faults the pipeline entry point
raises. -/
theorem C1_counterexample :
    processTextWithFault (some "boom") demoText
      = Except.error "Failed to process report text: boom" ∧
    (∀ pd : ProcessedData,
      processTextWithFault (some "boom") demoText ≠ Except.ok pd) := by
  refine ⟨rfl, ?_⟩
  intro pd h
  exact Except.noConfusion h

/-- C1 amended: for every input, process_text in the deterministic mode
returns the structured sections/terms record when no internal step faults
(and in that mode no step can fault: every embedded step is a total
function); predict_conditions and process_query are total even when an
internal step faults, returning the sentinel list and a non-empty fallback
answer respectively. -/
theorem C1_amended_pipeline_totality (text query : String) (fault : Option String)
    (pd : ProcessedData) (conds : List String) (ed : EnrichedData) :
    processTextWithFault none text
      = Except.ok ⟨extract_report_sections text, identify_medical_terms text⟩ ∧
    predictConditionsWithFault fault pd.sections ≠ [] ∧
    processQueryWithFault fault query pd conds ed ≠ "" := by
  refine ⟨rfl, ?_, ?_⟩
  · cases fault with
    | none => exact predict_conditions_ne_nil pd.sections
    | some m => exact error_sentinel_ne_nil
  · cases fault with
    | none => exact generate_basic_response_ne_empty query pd conds ed
    | some m => exact apology_ne_empty

theorem foldl_scoreStep_no_match (ft : List Char) :
    ∀ (tbl : List (String × List String)) (acc : List (String × Nat)),
      (∀ fc ∈ tbl, wordSearch fc.1 ft = false) → tbl.foldl (scoreStep ft) acc = acc := by
  intro tbl
  induction tbl with
  | nil => intro acc _; rfl
  | cons fc tbl ih =>
    intro acc htbl
    rw [List.foldl_cons]
    have h1 : wordSearch fc.1 ft = false := htbl fc (List.mem_cons_self _ _)
    have hstep : scoreStep ft acc fc = acc := by
      unfold scoreStep
      rw [h1]
      rfl
    rw [hstep]
    exact ih acc (fun fc' h' => htbl fc' (List.mem_cons_of_mem _ h'))

/-- C5: when no finding phrase of the table occurs in the concatenated
section text (as a case-insensitive whole-word/phrase match), the predictor
returns exactly the single-element sentinel list. -/
theorem C5_no_findings_sentinel (sections : List (String × String))
    (h : ∀ fc ∈ FINDINGS_TO_CONDITIONS, wordSearch fc.1 (fullTextOf sections).data = false) :
    predict_conditions sections = ["No specific conditions identified"] := by
  have hscores : conditionScores (fullTextOf sections).data = [] :=
    foldl_scoreStep_no_match _ FINDINGS_TO_CONDITIONS [] h
  unfold predict_conditions predictRanking
  rw [hscores]
  rfl

/-- Witness for C5 at a concrete section map matching no finding phrase. -/
theorem C5_no_findings_sentinel_witness :
    predict_conditions [("FINDINGS", "all clear")] = ["No specific conditions identified"] :=
  C5_no_findings_sentinel [("FINDINGS", "all clear")] (by decide)

theorem dictInsert_keys {d : List (String × String)} {k v : String} {a : String}
    (h : a ∈ (dictInsert d k v).map Prod.fst) : a ∈ d.map Prod.fst ∨ a = k := by
  unfold dictInsert at h
  split at h
  · rw [List.map_map] at h
    have heq : (Prod.fst ∘ fun p : String × String => if p.1 == k then (p.1, v) else p)
        = Prod.fst := by
      funext p
      simp only [Function.comp_apply]
      split <;> rfl
    rw [heq] at h
    exact Or.inl h
  · rw [List.map_append] at h
    rcases List.mem_append.mp h with hd | hk
    · exact Or.inl hd
    · right
      simpa using hk

theorem foldl_dict_keys (stepF : List (String × String) → String → List (String × String))
    (hstep : ∀ d t a, a ∈ (stepF d t).map Prod.fst → a ∈ d.map Prod.fst ∨ a = t) :
    ∀ (input : List String) (acc : List (String × String)) (a : String),
      a ∈ (input.foldl stepF acc).map Prod.fst → a ∈ acc.map Prod.fst ∨ a ∈ input := by
  intro input
  induction input with
  | nil => intro acc a h; exact Or.inl h
  | cons t ts ih =>
    intro acc a h
    rw [List.foldl_cons] at h
    rcases ih (stepF acc t) a h with hacc | hts
    · rcases hstep acc t a hacc with hd | rfl
      · exact Or.inl hd
      · exact Or.inr (List.mem_cons_self _ _)
    · exact Or.inr (List.mem_cons_of_mem _ hts)

theorem enrichStep_keys (table : List (String × String)) :
    ∀ (d : List (String × String)) (t : String) (a : String),
      a ∈ (enrichStep table d t).map Prod.fst → a ∈ d.map Prod.fst ∨ a = t := by
  intro d t a h
  unfold enrichStep at h
  rcases hm : tableLookup table (strLower t).data with _ | v
  · rw [hm] at h
    exact Or.inl h
  · rw [hm] at h
    exact dictInsert_keys h

theorem condEnrichStep_keys :
    ∀ (d : List (String × String)) (t : String) (a : String),
      a ∈ (condEnrichStep d t).map Prod.fst → a ∈ d.map Prod.fst ∨ a = t := by
  intro d t a h
  unfold condEnrichStep at h
  rcases hm : conditionLookup (strLower t).data with _ | v
  · rw [hm] at h
    exact Or.inl h
  · rw [hm] at h
    exact dictInsert_keys h

/-- C10: for every input (the fault skeleton covering the except path too),
the enricher returns exactly the three mappings of the EnrichedData record,
every key of term_definitions and reference_ranges is one of the input terms
(stored with its original case), and every key of condition_info is one of
the input condition names. -/
theorem C10_enrichment_key_invariant (fault : Option String) (terms conds : List String) :
    (∀ a ∈ (enrichDataWithFault fault terms conds).term_definitions.map Prod.fst, a ∈ terms) ∧
    (∀ a ∈ (enrichDataWithFault fault terms conds).condition_info.map Prod.fst, a ∈ conds) ∧
    (∀ a ∈ (enrichDataWithFault fault terms conds).reference_ranges.map Prod.fst, a ∈ terms) := by
  cases fault with
  | some m =>
    refine ⟨?_, ?_, ?_⟩ <;> intro a h <;> cases h
  | none =>
    refine ⟨?_, ?_, ?_⟩ <;> intro a h
    · rcases foldl_dict_keys _ (enrichStep_keys MEDICAL_TERM_DEFINITIONS) terms [] a h with h0 | h1
      · cases h0
      · exact h1
    · rcases foldl_dict_keys _ condEnrichStep_keys conds [] a h with h0 | h1
      · cases h0
      · exact h1
    · rcases foldl_dict_keys _ (enrichStep_keys REFERENCE_RANGES) terms [] a h with h0 | h1
      · cases h0
      · exact h1

/-- Witness for C10: a concrete key of a concrete enrichment is among the
input terms, by the invariant. -/
theorem C10_enrichment_key_invariant_witness : ("WBC" : String) ∈ ["WBC", "5 mg"] :=
  (C10_enrichment_key_invariant none ["WBC", "5 mg"] ["Flu"]).1 "WBC" (by decide)

theorem mem_foldl_dedupAppend : ∀ (l acc : List (List Char)) (a : List Char),
    a ∈ l.foldl dedupAppend acc ↔ a ∈ acc ∨ a ∈ l := by
  intro l
  induction l with
  | nil => intro acc a; simp
  | cons t ts ih =>
    intro acc a
    rw [List.foldl_cons, ih]
    unfold dedupAppend
    by_cases ht : t ∈ acc
    · simp only [if_pos ht, List.mem_cons]
      constructor
      · tauto
      · rintro (h | rfl | h)
        · exact Or.inl h
        · exact Or.inl ht
        · exact Or.inr h
    · simp only [if_neg ht, List.mem_append, List.mem_singleton, List.mem_cons]
      tauto

theorem foldl_dedupAppend_keepFirst : ∀ l : List (List Char),
    l.foldl dedupAppend [] = (l.reverse.dedup).reverse := by
  intro l
  induction l using List.reverseRecOn with
  | nil => rfl
  | append_singleton l t ih =>
    rw [List.foldl_append, List.foldl_cons, List.foldl_nil]
    have hda : ∀ (acc : List (List Char)) (u : List Char),
        dedupAppend acc u = if u ∈ acc then acc else acc ++ [u] := fun _ _ => rfl
    rw [hda, List.reverse_append, List.reverse_singleton, List.singleton_append]
    by_cases ht : t ∈ l
    · have ht1 : t ∈ l.foldl dedupAppend [] := (mem_foldl_dedupAppend l [] t).mpr (Or.inr ht)
      rw [if_pos ht1, ih, List.dedup_cons_of_mem (List.mem_reverse.mpr ht)]
    · have ht1 : t ∉ l.foldl dedupAppend [] := by
        rw [mem_foldl_dedupAppend l [] t]
        rintro (h | h)
        · cases h
        · exact ht h
      rw [if_neg ht1, ih, List.dedup_cons_of_not_mem (fun hc => ht (List.mem_reverse.mp hc)),
        List.reverse_cons]

/-- C4: the term list has no duplicate exact strings, equals the
keep-first-occurrence dedup of the full match stream (patterns in
declaration order, each scanned left to right), and is a sublist of that
stream, i.e. it preserves first-seen order. -/
theorem C4_terms_nodup_first_seen (text : String) :
    (identify_medical_terms text).Nodup ∧
    identifyTermsL text.data = ((allMatches text.data).reverse.dedup).reverse ∧
    List.Sublist (identifyTermsL text.data) (allMatches text.data) := by
  have hkeep := foldl_dedupAppend_keepFirst (allMatches text.data)
  have hnodup : (identifyTermsL text.data).Nodup := by
    unfold identifyTermsL
    rw [hkeep, List.nodup_reverse]
    exact List.nodup_dedup _
  refine ⟨?_, hkeep, ?_⟩
  · exact hnodup.map (fun a b hab => congrArg String.data hab)
  · unfold identifyTermsL
    rw [hkeep]
    have hsub := (List.dedup_sublist (allMatches text.data).reverse).reverse
    rw [List.reverse_reverse] at hsub
    exact hsub

theorem chain'_insertByScore (x : String × Nat) :
    ∀ l : List (String × Nat), List.Chain' (fun p q : String × Nat => q.2 ≤ p.2) l →
      List.Chain' (fun p q : String × Nat => q.2 ≤ p.2) (insertByScore x l) := by
  intro l
  induction l with
  | nil => intro _; exact List.chain'_singleton x
  | cons y ys ih =>
    intro h
    unfold insertByScore
    split
    · rename_i hyx
      exact List.chain'_cons.mpr ⟨hyx, h⟩
    · rename_i hyx
      have hys := (List.chain'_cons'.mp h).2
      refine List.chain'_cons'.mpr ⟨?_, ih hys⟩
      intro z hz
      cases ys with
      | nil =>
        simp only [insertByScore, Option.mem_def, List.head?_cons, Option.some_inj] at hz
        subst hz
        exact Nat.le_of_not_le hyx
      | cons w ws =>
        by_cases hw : w.2 ≤ x.2
        · simp only [insertByScore, if_pos hw, Option.mem_def, List.head?_cons,
            Option.some_inj] at hz
          subst hz
          exact Nat.le_of_not_le hyx
        · simp only [insertByScore, if_neg hw, Option.mem_def, List.head?_cons,
            Option.some_inj] at hz
          subst hz
          exact (List.chain'_cons.mp h).1

theorem chain'_sortScores : ∀ l : List (String × Nat),
    List.Chain' (fun p q : String × Nat => q.2 ≤ p.2) (sortScores l) := by
  intro l
  induction l with
  | nil => exact List.chain'_nil
  | cons x l ih => exact chain'_insertByScore x (sortScores l) ih

theorem filter_insertByScore (x : String × Nat) (s : Nat) :
    ∀ l : List (String × Nat),
      (insertByScore x l).filter (fun p => p.2 == s)
        = if x.2 == s then x :: l.filter (fun p => p.2 == s)
          else l.filter (fun p => p.2 == s) := by
  intro l
  induction l with
  | nil =>
    unfold insertByScore
    rw [List.filter_cons]
  | cons y ys ih =>
    unfold insertByScore
    split
    · rename_i hyx
      rw [List.filter_cons]
    · rename_i hyx
      rw [List.filter_cons, ih, List.filter_cons]
      by_cases hx : (x.2 == s) = true <;> by_cases hy : (y.2 == s) = true
      · exfalso
        apply hyx
        rw [Nat.beq_eq_true_eq] at hx hy
        rw [hx, hy]
      · simp [hx, hy]
      · simp [hx, hy]
      · simp [hx, hy]

theorem filter_sortScores : ∀ (l : List (String × Nat)) (s : Nat),
    (sortScores l).filter (fun p => p.2 == s) = l.filter (fun p => p.2 == s) := by
  intro l
  induction l with
  | nil => intro s; rfl
  | cons x l ih =>
    intro s
    show (insertByScore x (sortScores l)).filter (fun p => p.2 == s) = _
    rw [filter_insertByScore, ih, List.filter_cons]

theorem insertByScore_perm (x : String × Nat) :
    ∀ l : List (String × Nat), List.Perm (insertByScore x l) (x :: l) := by
  intro l
  induction l with
  | nil => exact List.Perm.refl _
  | cons y ys ih =>
    unfold insertByScore
    split
    · exact List.Perm.refl _
    · exact (ih.cons y).trans (List.Perm.swap x y ys)

theorem sortScores_perm : ∀ l : List (String × Nat), List.Perm (sortScores l) l := by
  intro l
  induction l with
  | nil => exact List.Perm.refl _
  | cons x l ih => exact (insertByScore_perm x (sortScores l)).trans (ih.cons x)

/-- C2: the ranking is sorted by score descending (each score is at least
the next), is a permutation of the condition_scores dictionary, and within
each score value the ranking lists exactly the conditions of that score in
counter-creation order (the order counters were first created while
traversing the finding table in declaration order). -/
theorem C2_ranking_sorted_and_stable (sections : List (String × String)) :
    List.Chain' (fun p q : String × Nat => q.2 ≤ p.2) (predictRanking sections) ∧
    (∀ s : Nat, (predictRanking sections).filter (fun p => p.2 == s)
        = (conditionScores (fullTextOf sections).data).filter (fun p => p.2 == s)) ∧
    List.Perm (predictRanking sections) (conditionScores (fullTextOf sections).data) := by
  unfold predictRanking
  exact ⟨chain'_sortScores _, fun s => filter_sortScores _ s, sortScores_perm _⟩

theorem sectionHeaders_nodup : sectionHeaders.Nodup := by decide

theorem lookup_extract_sections (text : String) :
    ∀ (hs : List String), hs.Nodup → ∀ (h b : String), h ∈ hs →
      extractSection h text.data = some b →
      List.lookup h (hs.filterMap (fun k => (extractSection k text.data).map (fun v => (k, v))))
        = some b := by
  intro hs
  induction hs with
  | nil => intro _ h b hmem _; cases hmem
  | cons k ks ih =>
    intro hnd h b hmem hex
    rw [List.filterMap_cons]
    rcases List.mem_cons.mp hmem with heq | hmem'
    · subst heq
      rw [hex]
      simp [List.lookup]
    · have hk : (h == k) = false := by
        have hne : h ≠ k := fun hc => (List.nodup_cons.mp hnd).1 (hc ▸ hmem')
        exact beq_eq_false_iff_ne.mpr hne
      rcases hfk : extractSection k text.data with _ | v
      · exact ih (List.nodup_cons.mp hnd).2 h b hmem' hex
      · simp only [Option.map_some']
        simp [List.lookup, hk]
        exact ih (List.nodup_cons.mp hnd).2 h b hmem' hex

theorem take_claimStop_cases : ∀ l : List Char,
    l.take (claimStop l) = l.take (bodyLen l)
      ∨ l.take (claimStop l) = l.take (bodyLen l) ++ ['\n'] := by
  intro l
  induction l with
  | nil => exact Or.inl rfl
  | cons c cs ih =>
    by_cases hh : headerAt (c :: cs) = true
    · left
      unfold claimStop bodyLen
      simp [hh]
    · by_cases hd : dollarAt (c :: cs) = true
      · have hcn : c = '\n' ∧ cs = [] := by
          unfold dollarAt at hd
          simp only [Bool.or_eq_true, beq_iff_eq] at hd
          rcases hd with hd | hd
          · cases hd
          · exact ⟨(List.cons.injEq _ _ _ _ ▸ hd).1, (List.cons.injEq _ _ _ _ ▸ hd).2⟩
        obtain ⟨rfl, rfl⟩ := hcn
        right
        decide
      · unfold claimStop bodyLen
        simp only [hh, hd, Bool.or_self, if_false, Bool.false_eq_true, List.take_succ_cons]
        rcases ih with h1 | h1
        · left
          rw [h1]
        · right
          rw [h1]
          rfl

theorem dropTrail_append_newline (M : List Char) : dropTrail (M ++ ['\n']) = dropTrail M := by
  unfold dropTrail
  rw [List.reverse_append, List.reverse_singleton, List.singleton_append, List.dropWhile_cons,
    if_pos (by decide : isPySpace '\n' = true)]

theorem dropWhile_append_oneside (p : Char → Bool) : ∀ (X Y : List Char),
    List.dropWhile p (X ++ Y)
      = if (List.dropWhile p X).isEmpty then List.dropWhile p Y
        else List.dropWhile p X ++ Y := by
  intro X Y
  induction X with
  | nil => simp
  | cons c cs ih =>
    rw [List.cons_append, List.dropWhile_cons, List.dropWhile_cons]
    by_cases hc : p c = true
    · rw [if_pos hc, if_pos hc, ih]
    · rw [if_neg hc, if_neg hc]
      rfl

theorem pyStrip_append_newline (X : List Char) : pyStrip (X ++ ['\n']) = pyStrip X := by
  unfold pyStrip
  rw [dropWhile_append_oneside]
  by_cases h : (List.dropWhile isPySpace X).isEmpty = true
  · rw [if_pos h]
    have h2 : List.dropWhile isPySpace X = [] := List.isEmpty_iff.mp h
    rw [h2]
    decide
  · rw [if_neg h, dropTrail_append_newline]

/-- C3: for every text in which a recognized header occurs followed by a
separator character (colon or whitespace) — `rest` being the text after the
first such occurrence — the section map contains that header, and its value
is the text after the header and its separator run, up to the next
recognized header occurrence or the end of the text, stripped. -/
theorem C3_section_body (text h : String) (rest : List Char)
    (hmem : h ∈ sectionHeaders)
    (hfind : findHeaderRest h.data text.data = some rest) :
    List.lookup h (extract_report_sections text)
      = some (pyStrip ((rest.dropWhile isSepChar).take
          (claimStop (rest.dropWhile isSepChar)))).asString := by
  have hex : extractSection h text.data
      = some (pyStrip ((rest.dropWhile isSepChar).take
          (claimStop (rest.dropWhile isSepChar)))).asString := by
    unfold extractSection
    rw [hfind]
    rcases take_claimStop_cases (rest.dropWhile isSepChar) with h1 | h1
    · rw [h1]
    · rw [h1, pyStrip_append_newline]
  unfold extract_report_sections
  exact lookup_extract_sections text sectionHeaders sectionHeaders_nodup h _ hmem hex

/-- Witness for C3 on the demonstration text and the FINDINGS header. -/
theorem C3_section_body_witness :
    ("FINDINGS" ∈ sectionHeaders ∧
      findHeaderRest "FINDINGS".data demoText.data
        = some ": elevated glucose noted. IMPRESSION: consistent with prediabetes.".data) ∧
    List.lookup "FINDINGS" (extract_report_sections demoText)
      = some (pyStrip
          ((": elevated glucose noted. IMPRESSION: consistent with prediabetes.".data.dropWhile
              isSepChar).take
            (claimStop
              (": elevated glucose noted. IMPRESSION: consistent with prediabetes.".data.dropWhile
                isSepChar)))).asString :=
  ⟨⟨by decide, by decide⟩,
   C3_section_body demoText "FINDINGS"
     ": elevated glucose noted. IMPRESSION: consistent with prediabetes.".data
     (by decide) (by decide)⟩

end MedReport
